import Mathlib

namespace Whois

/-- Splitting a character list on '.', mirroring Go's `strings.Split(s, ".")`:
`""` splits to `[""]`, `"a.b"` to `["a","b"]`, `"a..b"` to `["a","","b"]`. -/
def splitOnDot : List Char → List (List Char)
  | [] => [[]]
  | c :: cs =>
    if c = '.' then [] :: splitOnDot cs
    else
      match splitOnDot cs with
      | [] => [[c]]
      | l :: ls => (c :: l) :: ls

/-- The label list of a query, as in `strings.Split(q, ".")` in `Resolve`. -/
def splitLabels (q : String) : List String :=
  (splitOnDot q.data).map String.mk

/-- Joining labels with '.', mirroring `strings.Join(labels, ".")`. -/
def joinDot : List String → String
  | [] => ""
  | [s] => s
  | s :: ss => s ++ "." ++ joinDot ss

example : splitLabels "a.b.c" = ["a", "b", "c"] := by decide
example : splitLabels "" = [""] := by decide
example : joinDot ["b", "c"] = "b.c" := by decide

/-- The `Request` record: query, resolved whois host, raw-socket body, HTTP URL.
The zone-resolution step builds it, a per-service resolver may rewrite it,
and `Fetch` consumes it. -/
structure Request where
  query : String
  host : String
  body : String
  url : String
deriving DecidableEq

/-- Modelled from the spec: `NewRequest` (not under src/) constructs the
Request for a query with all other fields empty ("constructed once per query
by the resolution step"; Host "may be empty if unresolved"). -/
def NewRequest (q : String) : Request :=
  { query := q, host := "", body := "", url := "" }

/-- Modelled from the spec: the default resolver (not under src/) performs
"no change, raw-socket body = Query + CRLF" — it sets the Body to the query
line and leaves Host and URL alone. -/
def defaultServer (req : Request) : Request :=
  { req with body := req.query ++ "\r\n" }

/-- The suffix-scanning loop of `Resolve` (src/whois.go):
`for i := 0; i < len(labels) && !ok; i++ { req.Host, ok = zones[strings.Join(labels[i:], ".")] }`.
Go's comma-ok map read assigns the zero value `""` on a miss, so when no
suffix matches the pair `("", false)` is the loop's final state. The zone
table itself is static data not under src/, so it is a parameter. -/
def scanZones (zones : String → Option String) : List String → String × Bool
  | [] => ("", false)
  | l :: ls =>
    match zones (joinDot (l :: ls)) with
    | some h => (h, true)
    | none => scanZones zones ls

/-- `Resolve` (src/whois.go): split the query on '.', scan suffixes from the
full query down to the last label for a zone-table hit, report an error (with
the partially built request) when none matches, otherwise run the registered
per-service resolver for the matched host, falling back to the default one.
The zone table and server registry contents are static data not under src/,
so both are parameters; `Resolve` discards the resolver's error return just
as `srv.Resolve(req)` does in the source. -/
def Resolve (zones : String → Option String)
    (servers : String → Option (Request → Request)) (q : String) :
    Request × Option String :=
  let req := NewRequest q
  let (host, ok) := scanZones zones (splitLabels q)
  let req := { req with host := host }
  if ok then
    let srv := (servers req.host).getD defaultServer
    (srv req, none)
  else
    (req, some ("No whois server found for " ++ q))

example :
    Resolve (fun s => if s = "com" then some "whois.verisign-grs.com" else none)
      (fun _ => none) "example.com" =
    ({ query := "example.com", host := "whois.verisign-grs.com",
       body := "example.com\r\n", url := "" }, none) := by decide

/-- `strings.SplitN(s, ".", 2)` on a character list: everything before the
first '.' and, when a '.' exists, the whole remainder as a second element;
a dotless string yields a single-element list. -/
def splitN2Chars (acc : List Char) : List Char → List (List Char)
  | [] => [acc.reverse]
  | c :: cs =>
    if c = '.' then [acc.reverse, cs] else splitN2Chars (c :: acc) cs

/-- `strings.SplitN(q, ".", 2)` as used by `Cenpac.Resolve` (src/whois.go). -/
def splitN2 (q : String) : List String :=
  (splitN2Chars [] q.data).map String.mk

example : splitN2 "foo.net.nr" = ["foo", "net.nr"] := by decide
example : splitN2 "foo" = ["foo"] := by decide

/-- One character of Go's `url.QueryEscape`: alphanumerics and `-_.~` pass
through, space becomes '+', anything else a `%XX` escape with uppercase hex.
(Non-ASCII queries would be escaped bytewise in Go; the registered service
only sees ASCII domain labels, which this character-level model matches.) -/
def escapeChar (c : Char) : List Char :=
  if c.isAlphanum || c = '-' || c = '_' || c = '.' || c = '~' then [c]
  else if c = ' ' then ['+']
  else
    let hex := fun n => if n < 10 then Char.ofNat (48 + n) else Char.ofNat (55 + n)
    ['%', hex (c.toNat / 16 % 16), hex (c.toNat % 16)]

def queryEscape (s : String) : String :=
  String.mk (s.data.flatMap escapeChar)

/-- `url.Values.Encode()` for the two keys `Cenpac.Resolve` sets: `Encode`
emits keys in sorted order, and "subdomain" < "tld". -/
def cenpacEncode (subdomain tld : String) : String :=
  "subdomain=" ++ queryEscape subdomain ++ "&tld=" ++ queryEscape tld

namespace Cenpac

/-- `Cenpac.Resolve` (src/whois.go): split the query at the first '.' into
`labels`, set `subdomain=labels[0]` and `tld=labels[1]` as URL query values,
point the request at the cenpac.net.nr lookup form and clear the body.
`labels[1]` is read with no bounds check; `none` models the index-out-of-range
panic Go raises when the split produced fewer than two labels. -/
def Resolve (req : Request) : Option Request :=
  match splitN2 req.query with
  | subdomain :: tld :: _ =>
    some { req with
      url := "http://cenpac.net.nr/dns/whois.html?" ++ cenpacEncode subdomain tld,
      body := "" }
  | _ => none

end Cenpac

example :
    Cenpac.Resolve { query := "domai.nr", host := "", body := "", url := "" } =
    some { query := "domai.nr", host := "", body := "",
           url := "http://cenpac.net.nr/dns/whois.html?subdomain=domai&tld=nr" } := by
  decide

/-- Network-level errors are abstract; only their identity matters here. -/
abbrev Err := String

/-- `DefaultReadLimit` (src/client.go): `1 << 20`, the maximum bytes a client
will attempt to read from a connection. -/
def DefaultReadLimit : Nat := 1 <<< 20

/-- What a peer's byte stream offers a reader: the bytes it will deliver, and
whether delivery ends in a clean EOF (`err = none`) or a read error that
surfaces after `bytes` have been consumed. -/
structure Stream where
  bytes : List Nat
  err : Option Err
deriving DecidableEq

/-- A dialed raw-socket connection as `fetchWhois` uses it: writing the
request body either succeeds or fails, and reading yields the peer stream. -/
structure Conn where
  writeErr : Option Err
  stream : Stream
deriving DecidableEq

/-- `ioutil.ReadAll(io.LimitReader(r, limit))`: reading stops after `limit`
bytes (a cap hit is a clean EOF from `LimitReader`, so an error lurking
beyond the cap is never observed); if the stream is exhausted below the cap,
a pending read error is reported, otherwise all bytes are returned. -/
def readAllLimit (limit : Nat) (s : Stream) : Except Err (List Nat) :=
  if limit ≤ s.bytes.length then .ok (s.bytes.take limit)
  else
    match s.err with
    | some e => .error e
    | none => .ok s.bytes

/-- The `Response` record: query, host, body bytes and detected content type. -/
structure Response where
  query : String
  host : String
  body : List Nat
  contentType : String
deriving DecidableEq

/-- Modelled from the spec: body sniffing (not under src/) classifies the
first bytes heuristically "as plain text vs. other". -/
def sniffContentType (body : List Nat) : String :=
  if (body.take 512).all (fun b => b = 9 || b = 10 || b = 13 || (32 ≤ b && b < 127)) then
    "text/plain; charset=utf-8"
  else
    "application/octet-stream"

/-- Modelled from the spec: `Response.DetectContentType` (not under src/) —
"if the transport supplied an explicit content-type header, trust it;
otherwise sniff the body's first bytes". -/
def DetectContentType (body : List Nat) (ct : String) : String :=
  if ct = "" then sniffContentType body else ct

/-- Modelled from the spec: `NewResponse` (not under src/) records the query
and host of a fetch in a fresh Response. -/
def NewResponse (query host : String) : Response :=
  { query := query, host := host, body := [], contentType := "" }

/-- `fetchWhois` (src/client.go): dial `"tcp"` to `req.Host + ":43"`, write
the request body, read at most `DefaultReadLimit` bytes, then detect the
content type with no transport-supplied header. Every network failure is
returned as-is with no Response. The dial function is the client's
`dialFunc`; what the network does is a parameter. -/
def fetchWhois (dial : String → String → Except Err Conn) (req : Request) :
    Except Err Response :=
  match dial "tcp" (req.host ++ ":43") with
  | .error e => .error e
  | .ok conn =>
    match conn.writeErr with
    | some e => .error e
    | none =>
      match readAllLimit DefaultReadLimit conn.stream with
      | .error e => .error e
      | .ok body =>
        .ok { NewResponse req.query req.host with
              body := body, contentType := DetectContentType body "" }

/-- The outbound HTTP request `httpRequest` builds: method, target URL,
payload and headers. -/
structure HTTPRequest where
  method : String
  url : String
  payload : String
  headers : List (String × String)
deriving DecidableEq

/-- `httpRequest` (src/client.go): POST with `req.Body` as payload if the
body is non-empty, otherwise GET, always targeting `req.URL`; a `Referer`
header equal to `req.URL` is added in both cases. -/
def httpRequest (req : Request) : HTTPRequest :=
  let hreq : HTTPRequest :=
    if req.body.length > 0 then
      { method := "POST", url := req.url, payload := req.body, headers := [] }
    else
      { method := "GET", url := req.url, payload := "", headers := [] }
  { hreq with headers := hreq.headers ++ [("Referer", req.url)] }

/-- What executing an HTTP request yields: a response body stream and the
`Content-Type` header value (`""` when absent). -/
structure HTTPResponse where
  stream : Stream
  contentType : String
deriving DecidableEq

/-- `fetchHTTP` (src/client.go): build the outbound request with
`httpRequest`, execute it through the HTTP client, read at most
`DefaultReadLimit` bytes of the response body, and detect the content type
from the `Content-Type` header. Failures return no Response. The HTTP
client's behavior is a parameter. -/
def fetchHTTP (http : HTTPRequest → Except Err HTTPResponse) (req : Request) :
    Except Err Response :=
  match http (httpRequest req) with
  | .error e => .error e
  | .ok hres =>
    match readAllLimit DefaultReadLimit hres.stream with
    | .error e => .error e
    | .ok body =>
      .ok { NewResponse req.query req.host with
            body := body, contentType := DetectContentType body hres.contentType }

/-- `Client.Fetch` (src/client.go): HTTP transport iff `req.URL != ""`,
raw-socket transport otherwise. -/
def Fetch (dial : String → String → Except Err Conn)
    (http : HTTPRequest → Except Err HTTPResponse) (req : Request) :
    Except Err Response :=
  if req.url ≠ "" then fetchHTTP http req else fetchWhois dial req

/-- A connection carrying the absolute deadline `SetDeadline` installed on
it. Times are abstract instants (e.g. nanoseconds). -/
structure TimedConn where
  deadline : Nat
deriving DecidableEq

/-- How the network behaves during `net.DialTimeout`: whether the connect
succeeds at all, and how long it takes when it does. -/
structure DialEnv where
  connectOk : Bool
  connectDuration : Nat
deriving DecidableEq

def timeoutErr : Err := "i/o timeout"

def connectErr : Err := "connect failed"

namespace DefaultTimeoutDialer

/-- `DefaultTimeoutDialer.Dial` (src/client.go): capture
`deadline = time.Now().Add(timeout)` before connecting, connect with
`net.DialTimeout(network, address, timeout)` (which fails with a timeout
error if the connect phase alone exceeds `timeout`), then install the
absolute deadline on the connection with `conn.SetDeadline(deadline)`.
`now` is the instant the call starts; the network's behavior is `env`. -/
def Dial (timeout now : Nat) (env : DialEnv) : Except Err TimedConn :=
  let deadline := now + timeout
  if env.connectOk then
    if env.connectDuration ≤ timeout then .ok { deadline := deadline }
    else .error timeoutErr
  else .error connectErr

end DefaultTimeoutDialer

/-- Outcome of a blocking read: the instant it returns and whether it
returned a deadline-exceeded (timeout) error. -/
structure ReadResult where
  time : Nat
  timedOut : Bool
deriving DecidableEq

/-- Modelled from the spec: the runtime semantics of a deadline-bearing
connection (`net.Conn` with `SetDeadline`, not under src/) — a blocking read
returns data when the peer delivers it by the deadline, and otherwise fails
with a timeout error the moment the deadline expires. `arrival` is the
instant the peer responds, `none` for a peer that never responds. -/
def readWithDeadline (conn : TimedConn) (arrival : Option Nat) : ReadResult :=
  match arrival with
  | some t =>
    if t ≤ conn.deadline then { time := t, timedOut := false }
    else { time := conn.deadline, timedOut := true }
  | none => { time := conn.deadline, timedOut := true }

/-- The shape of a parsed proxy URL as `NewClientWithProxy` consults it. -/
structure ParsedURL where
  scheme : String
  host : String
deriving DecidableEq

/-- Which dial function a freshly built client ends up with. -/
inductive DialKind where
  | direct (timeout : Nat)
  | socks4 (proxyHost : String) (timeout : Nat)
  | socks5 (proxyHost : String) (timeout : Nat)
deriving DecidableEq

/-- The configuration state a `Client` observably holds after construction:
the transport's proxy function (`none` ↔ the Go `proxyFunc` is nil) and the
dial function (`none` ↔ the Go `dialFunc` variable is still nil). -/
structure ClientConfig where
  proxyFunc : Option ParsedURL
  dialFunc : Option DialKind
deriving DecidableEq

/-- `NewClientWithProxy` (src/client.go): with a non-empty proxy string,
parse it — on success install `http.ProxyURL` and a SOCKS5 or SOCKS4 dialer
according to the scheme; on a parse error only log and set `proxyFunc = nil`,
leaving the `dialFunc` variable untouched (still nil). With an empty proxy
string, use the direct `DefaultTimeoutDialer`. `parse` stands for
`url.Parse` (`none` ↔ parse error). -/
def NewClientWithProxy (parse : String → Option ParsedURL) (timeout : Nat)
    (proxy : String) : ClientConfig :=
  if proxy ≠ "" then
    match parse proxy with
    | none => { proxyFunc := none, dialFunc := none }
    | some u =>
      { proxyFunc := some u,
        dialFunc := some (if u.scheme.toLower = "socks5" then
            .socks5 u.host timeout
          else
            .socks4 u.host timeout) }
  else { proxyFunc := none, dialFunc := some (.direct timeout) }

/-- C1: For every query string, `Resolve` splits the query on '.' into labels
and scans candidate suffixes from most specific (the full query, i = 0) to
least specific (the last label alone), setting `Request.Host` from the first
zone-table entry that matches; in particular, for a query "a.b.c" with both
"b.c" and "c" registered, the "b.c" entry is the one used. -/
theorem resolve_most_specific_first
    (zones : String → Option String)
    (L : List String) (i : Nat) (h : String)
    (hi : i < L.length)
    (hmatch : zones (joinDot (L.drop i)) = some h)
    (hbefore : ∀ j, j < i → zones (joinDot (L.drop j)) = none) :
    scanZones zones L = (h, true) ∧
    Resolve
      (fun s => if s = "b.c" then some "whois.bc.example" else
                if s = "c" then some "whois.c.example" else none)
      (fun _ => none) "a.b.c" =
      ({ query := "a.b.c", host := "whois.bc.example",
         body := "a.b.c\r\n", url := "" }, none) := by
  refine ⟨?_, by decide⟩
  induction L generalizing i with
  | nil => exact absurd hi (by simp)
  | cons l ls ih =>
    cases i with
    | zero =>
      rw [List.drop_zero] at hmatch
      simp [scanZones, hmatch]
    | succ j =>
      have h0 := hbefore 0 (Nat.succ_pos j)
      rw [List.drop_zero] at h0
      rw [List.drop_succ_cons] at hmatch
      simp only [scanZones, h0]
      exact ih j (by simpa using hi) hmatch
        (fun k hk => by
          simpa using hbefore (k + 1) (Nat.succ_lt_succ hk))

theorem resolve_most_specific_first_witness :
    scanZones
      (fun s => if s = "b.c" then some "whois.bc.example" else
                if s = "c" then some "whois.c.example" else none)
      ["a", "b", "c"] = ("whois.bc.example", true) :=
  (resolve_most_specific_first _ ["a", "b", "c"] 1 "whois.bc.example"
    (by decide) (by decide)
    (fun j hj => by interval_cases j; decide)).1

/-- C4: For every query string with no matching zone-table suffix, `Resolve`
returns a non-nil error together with the partially built Request whose Host
field is the empty string. -/
theorem resolve_no_match (zones : String → Option String)
    (servers : String → Option (Request → Request)) (q : String)
    (hnone : ∀ i, i < (splitLabels q).length →
      zones (joinDot ((splitLabels q).drop i)) = none) :
    Resolve zones servers q =
      ({ query := q, host := "", body := "", url := "" },
       some ("No whois server found for " ++ q)) := by
  have hscan : ∀ L : List String,
      (∀ i, i < L.length → zones (joinDot (L.drop i)) = none) →
      scanZones zones L = ("", false) := by
    intro L
    induction L with
    | nil => intro _; rfl
    | cons l ls ih =>
      intro hn
      have h0 := hn 0 (Nat.succ_pos _)
      rw [List.drop_zero] at h0
      simp only [scanZones, h0]
      exact ih (fun i hi => by
        simpa using hn (i + 1) (Nat.succ_lt_succ hi))
  simp [Resolve, NewRequest, hscan (splitLabels q) hnone]

theorem resolve_no_match_witness :
    Resolve (fun _ => none) (fun _ => none) "x.nonexistent" =
      ({ query := "x.nonexistent", host := "", body := "", url := "" },
       some ("No whois server found for " ++ "x.nonexistent")) :=
  resolve_no_match (fun _ => none) (fun _ => none) "x.nonexistent"
    (fun _ _ => rfl)

theorem readAllLimit_length {limit : Nat} {s : Stream} {bs : List Nat}
    (h : readAllLimit limit s = .ok bs) : bs.length ≤ limit := by
  unfold readAllLimit at h
  split at h
  · cases h
    simp
  · next hlt =>
    cases hs : s.err with
    | some e => rw [hs] at h; cases h
    | none =>
      rw [hs] at h
      cases h
      omega

/-- C2: For every Request, on both the raw-socket path and the HTTP path,
`Fetch` reads at most 1 MiB (2^20 bytes) into `Response.Body`, even when the
peer sends more bytes than that. -/
theorem fetch_read_cap (dial : String → String → Except Err Conn)
    (http : HTTPRequest → Except Err HTTPResponse) (req : Request)
    (res : Response) (hok : Fetch dial http req = .ok res) :
    res.body.length ≤ DefaultReadLimit ∧ DefaultReadLimit = 2 ^ 20 := by
  refine ⟨?_, by decide⟩
  unfold Fetch at hok
  split at hok
  · unfold fetchHTTP at hok
    split at hok
    · cases hok
    · split at hok
      · cases hok
      · next body hread =>
        cases hok
        exact readAllLimit_length hread
  · unfold fetchWhois at hok
    split at hok
    · cases hok
    · split at hok
      · cases hok
      · split at hok
        · cases hok
        · next body hread =>
          cases hok
          exact readAllLimit_length hread

theorem fetch_read_cap_witness :
    Fetch (fun _ _ => .ok ⟨none, ⟨[104, 105], none⟩⟩) (fun _ => .error "unused")
      ⟨"example.com", "whois.example", "example.com\r\n", ""⟩ =
      .ok ⟨"example.com", "whois.example", [104, 105], "text/plain; charset=utf-8"⟩ ∧
    ([104, 105] : List Nat).length ≤ DefaultReadLimit :=
  ⟨by rfl,
   (fetch_read_cap (fun _ _ => .ok ⟨none, ⟨[104, 105], none⟩⟩) (fun _ => .error "unused")
     ⟨"example.com", "whois.example", "example.com\r\n", ""⟩
     ⟨"example.com", "whois.example", [104, 105], "text/plain; charset=utf-8"⟩
     (by rfl)).1⟩

/-- C3: For every Request, `Fetch` dispatches to the HTTP transport if and
only if `Request.URL` is non-empty; otherwise it dispatches to the raw-socket
transport, dialing `tcp` to `Request.Host` concatenated with ":43" (the
outcome depends on the dial function only through its value at that one
network/address pair). -/
theorem fetch_dispatch (dial dial' : String → String → Except Err Conn)
    (http : HTTPRequest → Except Err HTTPResponse) (req : Request) :
    (req.url ≠ "" → Fetch dial http req = fetchHTTP http req) ∧
    (req.url = "" →
      Fetch dial http req = fetchWhois dial req ∧
      (dial "tcp" (req.host ++ ":43") = dial' "tcp" (req.host ++ ":43") →
        Fetch dial http req = Fetch dial' http req)) := by
  refine ⟨fun h => by simp [Fetch, h], fun h => ⟨by simp [Fetch, h], fun hd => ?_⟩⟩
  simp only [Fetch, h]
  simp only [ne_eq, not_true_eq_false, if_false]
  unfold fetchWhois
  rw [hd]

theorem fetch_dispatch_witness :
    Fetch (fun _ _ => .error "down") (fun _ => .error "http down")
      { query := "q", host := "h", body := "", url := "http://e.example/" } =
      fetchHTTP (fun _ => .error "http down")
        { query := "q", host := "h", body := "", url := "http://e.example/" } ∧
    Fetch (fun _ _ => .error "down") (fun _ => .error "http down")
      { query := "q", host := "h", body := "q\r\n", url := "" } =
      fetchWhois (fun _ _ => .error "down")
        { query := "q", host := "h", body := "q\r\n", url := "" } :=
  ⟨(fetch_dispatch (fun _ _ => .error "down") (fun _ _ => .error "down")
      (fun _ => .error "http down")
      { query := "q", host := "h", body := "", url := "http://e.example/" }).1
    (by decide),
   ((fetch_dispatch (fun _ _ => .error "down") (fun _ _ => .error "down")
      (fun _ => .error "http down")
      { query := "q", host := "h", body := "q\r\n", url := "" }).2 rfl).1⟩

/-- C9: For every Fetch call on either transport, if reading the response
body fails, `Fetch` returns the error and no Response value: the partially
read body is discarded, never surfaced to the caller. -/
theorem fetch_read_error_discards (dial : String → String → Except Err Conn)
    (http : HTTPRequest → Except Err HTTPResponse) (req : Request)
    (conn : Conn) (hres : HTTPResponse) (e : Err) :
    (req.url = "" → dial "tcp" (req.host ++ ":43") = .ok conn →
      conn.writeErr = none → conn.stream.bytes.length < DefaultReadLimit →
      conn.stream.err = some e →
      Fetch dial http req = .error e) ∧
    (req.url ≠ "" → http (httpRequest req) = .ok hres →
      hres.stream.bytes.length < DefaultReadLimit → hres.stream.err = some e →
      Fetch dial http req = .error e) := by
  constructor
  · intro hu hd hw hl he
    simp [Fetch, hu, fetchWhois, hd, hw, readAllLimit, Nat.not_le.mpr hl, he]
  · intro hu hh hl he
    simp [Fetch, hu, fetchHTTP, hh, readAllLimit, Nat.not_le.mpr hl, he]

theorem fetch_read_error_discards_witness :
    Fetch (fun _ _ => .ok ⟨none, ⟨[104], some "connection reset"⟩⟩)
      (fun _ => .error "unused") ⟨"q", "h", "q\r\n", ""⟩ =
      .error "connection reset" ∧
    Fetch (fun _ _ => .error "unused")
      (fun _ => .ok ⟨⟨[104], some "tls reset"⟩, "text/html"⟩)
      ⟨"q", "h", "", "http://e.example/"⟩ =
      .error "tls reset" :=
  ⟨(fetch_read_error_discards
      (fun _ _ => .ok ⟨none, ⟨[104], some "connection reset"⟩⟩)
      (fun _ => .error "unused") ⟨"q", "h", "q\r\n", ""⟩
      ⟨none, ⟨[104], some "connection reset"⟩⟩
      ⟨⟨[], none⟩, ""⟩
      "connection reset").1 rfl rfl rfl (by decide) rfl,
   (fetch_read_error_discards (fun _ _ => .error "unused")
      (fun _ => .ok ⟨⟨[104], some "tls reset"⟩, "text/html"⟩)
      ⟨"q", "h", "", "http://e.example/"⟩
      ⟨none, ⟨[], none⟩⟩
      ⟨⟨[104], some "tls reset"⟩, "text/html"⟩
      "tls reset").2 (by decide) rfl (by decide) rfl⟩

theorem string_ne_empty_iff (s : String) : s ≠ "" ↔ 0 < s.length := by
  cases s with
  | mk data =>
    cases data with
    | nil => simp [String.length]
    | cons c cs =>
      constructor
      · intro _; simp [String.length]
      · intro _ h
        exact absurd (congrArg String.data h) (by simp)

/-- C8: For every Request taking the HTTP path, the outbound HTTP request
uses method POST with `Request.Body` as payload when the body is non-empty
and method GET otherwise, targets `Request.URL`, and in both cases carries a
Referer header equal to `Request.URL`. -/
theorem httpRequest_spec (req : Request) :
    (httpRequest req).url = req.url ∧
    ("Referer", req.url) ∈ (httpRequest req).headers ∧
    (req.body ≠ "" →
      (httpRequest req).method = "POST" ∧ (httpRequest req).payload = req.body) ∧
    (req.body = "" → (httpRequest req).method = "GET") := by
  by_cases h : req.body = ""
  · have hl : ¬ 0 < req.body.length := fun hp =>
      (string_ne_empty_iff req.body).mpr hp h
    simp [httpRequest, h, Nat.lt_irrefl, if_neg hl]
  · have hl : 0 < req.body.length := (string_ne_empty_iff req.body).mp h
    simp [httpRequest, h, if_pos hl]

theorem httpRequest_spec_witness :
    (httpRequest ⟨"q", "h", "q\r\n", "http://e.example/"⟩).method = "POST" ∧
    (httpRequest ⟨"q", "h", "q\r\n", "http://e.example/"⟩).payload = "q\r\n" ∧
    (httpRequest ⟨"q", "h", "", "http://e.example/"⟩).method = "GET" ∧
    ("Referer", "http://e.example/") ∈
      (httpRequest ⟨"q", "h", "", "http://e.example/"⟩).headers :=
  ⟨((httpRequest_spec ⟨"q", "h", "q\r\n", "http://e.example/"⟩).2.2.1 (by decide)).1,
   ((httpRequest_spec ⟨"q", "h", "q\r\n", "http://e.example/"⟩).2.2.1 (by decide)).2,
   (httpRequest_spec ⟨"q", "h", "", "http://e.example/"⟩).2.2.2 rfl,
   (httpRequest_spec ⟨"q", "h", "", "http://e.example/"⟩).2.1⟩

/-- C5: The direct dialer opens the connection with a connect timeout and
then sets an absolute deadline of now + timeout on the returned connection,
so the total time spent connecting and reading is bounded by the single
configured timeout; a peer that accepts the connection but never responds
yields a timeout error no later than timeout after connection start. -/
theorem dial_total_deadline (timeout now : Nat) (env : DialEnv) (conn : TimedConn)
    (hok : DefaultTimeoutDialer.Dial timeout now env = .ok conn) :
    conn.deadline = now + timeout ∧
    (readWithDeadline conn none).timedOut = true ∧
    (readWithDeadline conn none).time ≤ now + timeout := by
  simp only [DefaultTimeoutDialer.Dial] at hok
  split at hok
  · split at hok
    · cases hok
      exact ⟨rfl, rfl, Nat.le_refl _⟩
    · cases hok
  · cases hok

theorem dial_total_deadline_witness :
    (⟨130⟩ : TimedConn).deadline = 100 + 30 ∧
    (readWithDeadline ⟨130⟩ none).timedOut = true ∧
    (readWithDeadline ⟨130⟩ none).time ≤ 100 + 30 :=
  dial_total_deadline 30 100 ⟨true, 5⟩ ⟨130⟩ (by rfl)

theorem splitN2Chars_length (acc cs : List Char) :
    (splitN2Chars acc cs).length = if '.' ∈ cs then 2 else 1 := by
  induction cs generalizing acc with
  | nil => simp [splitN2Chars]
  | cons c cs ih =>
    by_cases h : c = '.'
    · subst h; simp [splitN2Chars]
    · rw [splitN2Chars, if_neg h, ih]
      simp [List.mem_cons, Ne.symm h]

/-- C10: `Cenpac.Resolve` accesses the second element of
`strings.SplitN(req.Query, ".", 2)` without a bounds check, so it is only
safe under the precondition that the query contains at least one '.'; for
any Request whose Query contains no dot the split has a single element, so
the index access is out of range (modelled by the `none` result), while a
query containing a dot always yields exactly two elements and a result. -/
theorem cenpac_dot_precondition (req : Request) :
    (¬ '.' ∈ req.query.data →
      (splitN2 req.query).length = 1 ∧ Cenpac.Resolve req = none) ∧
    ('.' ∈ req.query.data →
      (splitN2 req.query).length = 2 ∧ ∃ r, Cenpac.Resolve req = some r) := by
  have hlen : (splitN2 req.query).length =
      if '.' ∈ req.query.data then 2 else 1 := by
    simpa [splitN2] using splitN2Chars_length [] req.query.data
  constructor
  · intro h
    have h1 : (splitN2 req.query).length = 1 := by rw [hlen, if_neg h]
    obtain ⟨a, ha⟩ := List.length_eq_one.mp h1
    exact ⟨h1, by simp [Cenpac.Resolve, ha]⟩
  · intro h
    have h2 : (splitN2 req.query).length = 2 := by rw [hlen, if_pos h]
    refine ⟨h2, ?_⟩
    rcases hs : splitN2 req.query with _ | ⟨a, _ | ⟨b, rest⟩⟩
    · rw [hs] at h2; simp at h2
    · rw [hs] at h2; simp at h2
    · refine ⟨⟨req.query, req.host, "", "http://cenpac.net.nr/dns/whois.html?" ++ cenpacEncode a b⟩, ?_⟩
      simp [Cenpac.Resolve, hs]

theorem cenpac_dot_precondition_witness :
    ((splitN2 "nodot").length = 1 ∧
      Cenpac.Resolve ⟨"nodot", "", "", ""⟩ = none) ∧
    ((splitN2 "domai.nr").length = 2 ∧
      ∃ r, Cenpac.Resolve ⟨"domai.nr", "", "", ""⟩ = some r) :=
  ⟨(cenpac_dot_precondition ⟨"nodot", "", "", ""⟩).1 (by decide),
   (cenpac_dot_precondition ⟨"domai.nr", "", "", ""⟩).2 (by decide)⟩

/-- C6 counterexample: for the query "foo.net.nr", `Cenpac.Resolve` does NOT
produce the URL whose query parameters are subdomain=foo and tld=nr —
`strings.SplitN(q, ".", 2)` keeps everything after the first dot, so the tld
parameter is "net.nr". -/
theorem cenpac_foo_net_nr_counterexample :
    Cenpac.Resolve ⟨"foo.net.nr", "", "", ""⟩ ≠
      some ⟨"foo.net.nr", "",  "",
        "http://cenpac.net.nr/dns/whois.html?subdomain=foo&tld=nr"⟩ ∧
    (Cenpac.Resolve ⟨"foo.net.nr", "", "", ""⟩).map Request.url ≠
      some "http://cenpac.net.nr/dns/whois.html?subdomain=foo&tld=nr" :=
  ⟨by decide, by decide⟩

/-- C6 (amended): For the query "foo.net.nr" resolved through the registered
Cenpac resolver, the resulting Request has an empty Body and a URL whose
query parameters are subdomain=foo and tld=net.nr (the split keeps the whole
remainder after the first dot as the tld). -/
theorem cenpac_foo_net_nr :
    Cenpac.Resolve ⟨"foo.net.nr", "", "", ""⟩ =
      some ⟨"foo.net.nr", "", "",
        "http://cenpac.net.nr/dns/whois.html?subdomain=foo&tld=net.nr"⟩ := by
  decide

/-- C7: a non-empty proxy string that fails to parse as a URL leaves the
client's dial function nil (`none`) — it does NOT fall back to the
direct-with-deadline dialer, contrary to the documented intent of a
non-fatal degradation to direct dialing (compare the empty-proxy call, which
does install the direct dialer). A nil dial function makes every raw-socket
`Fetch` dereference a nil function value. -/
theorem proxy_parse_error_leaves_dial_nil :
    NewClientWithProxy (fun _ => none) 30 "://bad" =
      ⟨none, none⟩ ∧
    (NewClientWithProxy (fun _ => none) 30 "://bad").dialFunc ≠
      some (.direct 30) ∧
    NewClientWithProxy (fun _ => none) 30 "" =
      ⟨none, some (.direct 30)⟩ :=
  ⟨by decide, by decide, by decide⟩

end Whois
